import Mathlib

/-!
Verification development for the zkLayer/dsl trace-driven compiler.

This file shallowly embeds the Rust sources under src/ (compiler.rs, dsl.rs,
functions.rs, data_type.rs) into Lean 4 and settles the frozen claims about
them.  Rust `usize` is modelled as `Nat`, `i32` as `Int`, `Vec<u8>` as
`List Nat`, `Result<T>` (anyhow) as `Except DslError T` where `DslError`
distinguishes each `Error::msg` construction site of the source plus `.unwrapNone`
for a Rust `unwrap()` on a missing value (a panic: the compilation produces no
value, but not by returning a descriptive error).  `HashMap`/`IndexMap` are
modelled as association lists queried with `List.lookup`.

The source files in src/ come from slightly different revisions of the crate:
`compiler.rs` matches four `TraceEntry` variants and an
`AcceptableFunctionMetadata` enum, while the `dsl.rs`/`functions.rs` revisions
show two variants and a plain metadata struct.  The embedding uses the superset
(four trace variants, the enum with per-variant field projections), which is
what both files' field accesses require.

`crate::stack::Stack`, `crate::options::Options` and the `script!` byte
encoder are code of this repository that is not under src/; they are modelled
from the spec where so marked, at opcode granularity (`Op`), which is the level
at which the claims speak.
-/

/-- Element (dsl.rs): a tagged runtime value; `Num` is an `i32`, `Str` a byte
string, and the `Many` variants fixed-length vectors thereof. -/
inductive Element where
  | Num (v : Int)
  | ManyNum (v : List Int)
  | Str (v : List Nat)
  | ManyStr (v : List (List Nat))
deriving DecidableEq, Repr

/-- ElementType (dsl.rs): the schema of an Element. -/
inductive ElementType where
  | Num
  | ManyNum (n : Nat)
  | Str
  | ManyStr (n : Nat)
deriving DecidableEq, Repr

/-- Element::len (dsl.rs): the number of machine slots the value occupies. -/
def Element.len : Element → Nat
  | .Num _ => 1
  | .ManyNum v => v.length
  | .Str _ => 1
  | .ManyStr v => v.length

/-- ElementType::len (dsl.rs): 1 for scalar shapes, n for vector shapes. -/
def ElementType.len : ElementType → Nat
  | .Num => 1
  | .ManyNum n => n
  | .Str => 1
  | .ManyStr n => n

/-- Element::match_type (dsl.rs). -/
def Element.match_type : Element → ElementType → Bool
  | .Num _, .Num => true
  | .ManyNum v, .ManyNum l => v.length == l
  | .Str _, .Str => true
  | .ManyStr v, .ManyStr l => v.length == l
  | _, _ => false

/-- MemoryEntry (dsl.rs). -/
structure MemoryEntry where
  data_type : String
  data : Element
  description : Option String
deriving DecidableEq, Repr

/-- Options. Modelled from the spec: crate::options::Options is not under
src/; the spec describes it as a per-call bag of named values, opaque to the
compiler, with a constructor `Options::new()` producing an empty bag. -/
structure Options where
  entries : List (String × Nat)
deriving DecidableEq, Repr

/-- Options::new. Modelled from the spec: the empty options bag. -/
def Options.new : Options := ⟨[]⟩

/-- TraceEntry, with the four variants matched by compiler.rs (the dsl.rs
revision in src/ lists only the first and third). -/
inductive TraceEntry where
  | FunctionCall (name : String) (inputs : List Nat)
  | FunctionCallWithOptions (name : String) (inputs : List Nat) (options : Options)
  | AllocatedConstant (idx : Nat)
  | AllocatedHint (idx : Nat)
deriving DecidableEq, Repr

/-- FunctionOutput (functions.rs): what a trace generator returns. -/
structure FunctionOutput where
  new_elements : List MemoryEntry
  new_hints : List MemoryEntry

/-- DataTypeMetadata (data_type.rs, plus the `ref_only` flag that dsl.rs
writes in `add_data_type`/`add_ref_only_data_type`). -/
structure DataTypeMetadata where
  element_type : ElementType
  ref_only : Bool

/-- DataTypeRegistry (data_type.rs); its HashMap is modelled as an association
list. -/
structure DataTypeRegistry where
  map : List (String × DataTypeMetadata)

/-- Target-VM opcodes at the granularity the compiler emits them: the named
single-byte opcodes used by compiler.rs, plus immediate pushes (the `{ expr }`
interpolations of the `script!` macro).  The byte encoder itself lives outside
src/; one named opcode is one byte. -/
inductive Op where
  | OP_DUP
  | OP_OVER
  | OP_SWAP
  | OP_ROT
  | OP_PICK
  | OP_ROLL
  | OP_DROP
  | OP_2DROP
  | OP_TOALTSTACK
  | OP_FROMALTSTACK
  | OP_DEPTH
  | OP_1SUB
  | pushNum (n : Int)
  | pushBytes (b : List Nat)
deriving DecidableEq, Repr

/-- Pushable for Element (dsl.rs): a constant is pushed one slot at a time in
the natural element order. -/
def Element.pushOps : Element → List Op
  | .Num v => [.pushNum v]
  | .ManyNum v => v.map (fun x => Op.pushNum x)
  | .Str v => [.pushBytes v]
  | .ManyStr v => v.map (fun x => Op.pushBytes x)

/-- Errors. Each constructor stands for one distinct `Error::msg` site of the
source; `.unwrapNone` models a Rust `unwrap()` of a missing value (a panic,
not a returned error); `.genError` wraps an error propagated verbatim from a
user-registered generator; `.stackError` wraps the stack model's own errors
(stack.rs is not under src/; its errors are modelled from the spec). -/
inductive DslError where
  | unwrapNone
  | noOptions
  | notRegistered
  | numInputsMismatch
  | inputTypeMismatch
  | numOutputsMismatch
  | outputTypeMismatch
  | outputDataMismatch
  | dataTypeNotRegistered
  | dataMismatch
  | memoryCorrupted
  | allocAfterLock
  | stackError (s : String)
  | genError (s : String)
deriving DecidableEq, Repr

/-- The test `input_type.starts_with("&")` of compiler.rs: for the
single-character pattern `"&"` this is exactly "the first character is the
reference marker" (spelled on the character list so that it reduces in the
kernel; `String.startsWith` itself does not). -/
def startsWithAmp (s : String) : Bool :=
  match s.data with
  | [] => false
  | c :: _ => c == '&'

/-- Unwrap of an `Option` as Rust's `.unwrap()`: a missing value is a panic. -/
def unwrapO : Option α → Except DslError α
  | some a => .ok a
  | none => .error .unwrapNone

/-- Stack. Modelled from the spec: crate::stack::Stack is not under src/.
The simulated operand stack is an ordered sequence of `(idx, width)` pairs;
here the head of the list is the top of the stack.  (`Stack::new` takes a
capacity argument that plays no role in the contracts.) -/
def Stack := List (Nat × Nat)

/-- Stack::new. Modelled from the spec: the empty stack (the capacity argument
is irrelevant to the contracts). -/
def Stack.new (_capacity : Nat) : Stack := []

/-- Stack::push_to_stack. Modelled from the spec: append `(idx, width)` at the
top; fails if `idx` is already live. -/
def Stack.push_to_stack (s : Stack) (idx width : Nat) : Except DslError Stack :=
  if s.any (fun p => p.1 == idx) then
    .error (.stackError "the idx already presents in the stack")
  else
    .ok ((idx, width) :: s)

/-- Stack::get_relative_position. Modelled from the spec: the count of machine
slots strictly above the topmost slot of the entry for `idx`; fails if `idx`
is not live. -/
def Stack.get_relative_position : Stack → Nat → Except DslError Nat
  | [], _ => .error (.stackError "the idx is not live on the stack")
  | (j, w) :: rest, idx =>
    if j == idx then .ok 0
    else (Stack.get_relative_position rest idx).map (fun p => w + p)

/-- Stack::get_length. Modelled from the spec: the width of the entry for
`idx`; fails if not live. -/
def Stack.get_length : Stack → Nat → Except DslError Nat
  | [], _ => .error (.stackError "the idx is not live on the stack")
  | (j, w) :: rest, idx =>
    if j == idx then .ok w else Stack.get_length rest idx

/-- Stack::pull. Modelled from the spec: remove the entry for `idx`; slots
above shift down; fails if not live. -/
def Stack.pull : Stack → Nat → Except DslError Stack
  | [], _ => .error (.stackError "the idx is not live on the stack")
  | (j, w) :: rest, idx =>
    if j == idx then .ok rest
    else (Stack.pull rest idx).map (fun s => (j, w) :: s)

/-- Stack::get_num_elements_in_stack. Modelled from the spec
(`num_live_slots`): the sum of the widths of all live entries. -/
def Stack.get_num_elements_in_stack (s : Stack) : Except DslError Nat :=
  .ok (s.foldl (fun acc p => acc + p.2) 0)

/-- Emit `n` copies of the two-byte sequence `a b` — the shape of the
`for _ in 0..len { { imm } OPCODE }` loops of the `script!` blocks in
compiler.rs. -/
def repPair (n : Nat) (a b : Op) : List Op :=
  match n with
  | 0 => []
  | Nat.succ m => a :: b :: repPair m a b

/-- roll_script (compiler.rs): move a `len`-slot block whose topmost slot is
`distance` from the top to the top.  Nat subtraction models usize for the
`len >= 1` regime in which the compiler calls it. -/
def roll_script (distance len : Nat) : List Op :=
  if distance == len - 1 then
    []
  else
    if distance == 1 then
      List.replicate len Op.OP_SWAP
    else if distance == 2 then
      List.replicate len Op.OP_ROT
    else
      repPair len (Op.pushNum distance) Op.OP_ROLL

/-- pick_script (compiler.rs): copy the same block, leaving the original in
place. -/
def pick_script (distance len : Nat) : List Op :=
  if distance == 0 then
    List.replicate len Op.OP_DUP
  else if distance == 1 then
    List.replicate len Op.OP_OVER
  else
    repPair len (Op.pushNum distance) Op.OP_PICK

/-- Mutable state of a DSL (dsl.rs fields other than the registries).  The
two-level split exists because the registered trace generators receive the
DSL by `&mut` reference in functions.rs: in Lean a generator is modelled as a
state-passing function over this registry-free part (a generator of the source
could in principle also touch the registries; no claim depends on that). The
`output` field of declared outputs is the one compiler.rs reads as
`dsl.output` (the dsl.rs revision in src/ predates it). -/
structure DslState where
  memory : List (Nat × MemoryEntry)
  memory_last_idx : Nat
  trace : List TraceEntry
  num_inputs : Option Nat
  hint : List MemoryEntry
  output : List Nat

/-- FunctionMetadata of a function registered without options (functions.rs /
compiler.rs `FunctionWithoutOptions`): the declared input/output type names, a
trace generator, and a script generator taking the reference positions. -/
structure FunctionWithoutOptionsMetadata where
  trace_generator : DslState → List Nat → DslState × Except String FunctionOutput
  script_generator : List Nat → Except String (List Op)
  input : List String
  output : List String

/-- FunctionMetadata of a function registered with options (compiler.rs
`FunctionWithOptions`): its script generator additionally takes the per-call
options bag. -/
structure FunctionWithOptionsMetadata where
  trace_generator : DslState → List Nat → DslState × Except String FunctionOutput
  script_generator : List Nat → Options → Except String (List Op)
  input : List String
  output : List String

/-- AcceptableFunctionMetadata (functions.rs as used by compiler.rs). -/
inductive AcceptableFunctionMetadata where
  | FunctionWithoutOptions (v : FunctionWithoutOptionsMetadata)
  | FunctionWithOptions (v : FunctionWithOptionsMetadata)

/-- Declared input type names of either metadata variant (compiler.rs lines
61-64 dispatch; dsl.rs reads the field directly). -/
def AcceptableFunctionMetadata.input : AcceptableFunctionMetadata → List String
  | .FunctionWithoutOptions v => v.input
  | .FunctionWithOptions v => v.input

/-- Declared output type names of either metadata variant. -/
def AcceptableFunctionMetadata.output : AcceptableFunctionMetadata → List String
  | .FunctionWithoutOptions v => v.output
  | .FunctionWithOptions v => v.output

/-- Trace generator of either metadata variant (dsl.rs `execute` invokes it
uniformly). -/
def AcceptableFunctionMetadata.trace_generator :
    AcceptableFunctionMetadata → DslState → List Nat → DslState × Except String FunctionOutput
  | .FunctionWithoutOptions v => v.trace_generator
  | .FunctionWithOptions v => v.trace_generator

/-- FunctionRegistry (functions.rs); its HashMap is modelled as an association
list. -/
structure FunctionRegistry where
  map : List (String × AcceptableFunctionMetadata)

/-- DSL (dsl.rs): the registries plus the mutable state. -/
structure DSL where
  data_type_registry : DataTypeRegistry
  function_registry : FunctionRegistry
  st : DslState

/-- Field access `dsl.memory` of the source. -/
def DSL.memory (d : DSL) : List (Nat × MemoryEntry) := d.st.memory

/-- Field access `dsl.memory_last_idx` of the source. -/
def DSL.memory_last_idx (d : DSL) : Nat := d.st.memory_last_idx

/-- Field access `dsl.trace` of the source. -/
def DSL.trace (d : DSL) : List TraceEntry := d.st.trace

/-- Field access `dsl.num_inputs` of the source. -/
def DSL.num_inputs (d : DSL) : Option Nat := d.st.num_inputs

/-- Field access `dsl.hint` of the source. -/
def DSL.hint (d : DSL) : List MemoryEntry := d.st.hint

/-- Field access `dsl.output` of the source. -/
def DSL.output (d : DSL) : List Nat := d.st.output

/-- CompiledProgram (crate::script, as constructed at the end of
compiler.rs): the input snapshot, the emitted script, and the hints. -/
structure CompiledProgram where
  input : List MemoryEntry
  script : List Op
  hint : List MemoryEntry
deriving DecidableEq, Repr

/-- One liveness-pass step (compiler.rs lines 20-30): a `FunctionCall` records
the current call time for every input it reads and then advances the time;
every other trace entry — including `FunctionCallWithOptions` — falls into the
`_ => {}` arm, recording nothing and advancing nothing.  The accumulator is
`(cur_time, last_visit)` with `last_visit` as a total function (the source
writes into a `vec![-1; memory_last_idx]`; indices are in range for every
trace produced through the front-end). -/
def lastVisitStep (acc : Int × (Nat → Int)) : TraceEntry → Int × (Nat → Int)
  | .FunctionCall _ inputs =>
    (acc.1 + 1, fun j => if inputs.contains j then acc.1 else acc.2 j)
  | _ => acc

/-- Step 1 of Compiler::compiler (compiler.rs): the liveness pass. -/
def lastVisitFun (trace : List TraceEntry) : Nat → Int :=
  (trace.foldl lastVisitStep (0, fun _ => -1)).2

/-- State threaded through the trace replay of Compiler::compiler: the
simulated stack, the script emitted so far, `cur_time` and `allocated_idx`. -/
structure ReplayState where
  stack : Stack
  script : List Op
  cur_time : Int
  allocated_idx : Nat

/-- The non-reference-input materialization loop shared verbatim by the two
call arms of compiler.rs (lines 66-103 and 152-189).  Arguments are processed
in order; `i` is the enumeration index, `numCloned` is
`num_cloned_input_elements`; the result is the stack after the loop, the
emitted opcodes, and the deferred reference inputs in argument order.  The
roll condition is the source's: `last_visit[input_idx] == cur_time`, the idx
is not contained in the slice `inputs[i..]` (which starts at the current
argument), and the idx is not a declared output. -/
def materializeInputs (dsl : DSL) (lv : Nat → Int) (curTime : Int) (allInputs : List Nat) :
    List (Nat × String) → Nat → Nat → Stack → Except DslError (Stack × List Op × List Nat)
  | [], _, _, stack => .ok (stack, [], [])
  | (input_idx, input_type) :: rest, i, numCloned, stack => do
    let entry ← unwrapO (dsl.memory.lookup input_idx)
    let input_metadata ← unwrapO (dsl.data_type_registry.map.lookup entry.data_type)
    if startsWithAmp input_type then
      let (stack', ops, refs) ← materializeInputs dsl lv curTime allInputs rest (i + 1) numCloned stack
      .ok (stack', ops, input_idx :: refs)
    else
      let len := input_metadata.element_type.len
      let pos ← Stack.get_relative_position stack input_idx
      let distance := pos + numCloned
      if lv input_idx == curTime
          && !((allInputs.drop i).contains input_idx)
          && !(dsl.output.contains input_idx) then
        let stack1 ← Stack.pull stack input_idx
        let (stack', ops, refs) ←
          materializeInputs dsl lv curTime allInputs rest (i + 1) (numCloned + len) stack1
        .ok (stack', roll_script distance len ++ ops, refs)
      else
        let (stack', ops, refs) ←
          materializeInputs dsl lv curTime allInputs rest (i + 1) (numCloned + len) stack
        .ok (stack', pick_script distance len ++ ops, refs)

/-- The output-pushing loop of both call arms of compiler.rs (lines 126-136
and 200-210): for each declared output type, look its width up in the
data-type registry, push `(allocated_idx, width)` and increment
`allocated_idx`. -/
def pushOutputs (dsl : DSL) :
    List String → Stack → Nat → Except DslError (Stack × Nat)
  | [], stack, aIdx => .ok (stack, aIdx)
  | output_type :: rest, stack, aIdx => do
    let data_type_metadata ← unwrapO (dsl.data_type_registry.map.lookup output_type)
    let stack' ← Stack.push_to_stack stack aIdx data_type_metadata.element_type.len
    pushOutputs dsl rest stack' (aIdx + 1)

/-- The `DEPTH 1SUB ROLL` drain emitted `len` times for an AllocatedHint
(compiler.rs lines 242-249). -/
def hintOps : Nat → List Op
  | 0 => []
  | Nat.succ m => Op.OP_DEPTH :: Op.OP_1SUB :: Op.OP_ROLL :: hintOps m

/-- The script-generator dispatch of the plain `FunctionCall` arm
(compiler.rs lines 112-119): a without-options function receives the
reference positions; a with-options function registered but called without
options receives a fresh `Options::new()`. -/
def runScriptGenerator (fm : AcceptableFunctionMetadata) (ref_positions : List Nat) :
    Except DslError (List Op) :=
  match fm with
  | .FunctionWithoutOptions v => (v.script_generator ref_positions).mapError DslError.genError
  | .FunctionWithOptions v =>
    (v.script_generator ref_positions Options.new).mapError DslError.genError

/-- Replay of one trace entry (the `match trace_entry` body of compiler.rs
lines 52-252). -/
def processEntry (dsl : DSL) (lv : Nat → Int) (st : ReplayState) :
    TraceEntry → Except DslError ReplayState
  | .FunctionCall function_name inputs => do
    let function_metadata ← unwrapO (dsl.function_registry.map.lookup function_name)
    let (stack1, ops, deferred_ref) ←
      materializeInputs dsl lv st.cur_time inputs
        (inputs.zip function_metadata.input) 0 0 st.stack
    let ref_positions ← deferred_ref.mapM (Stack.get_relative_position stack1)
    let genOps ← runScriptGenerator function_metadata ref_positions
    let (stack2, aIdx') ← pushOutputs dsl function_metadata.output stack1 st.allocated_idx
    .ok { stack := stack2, script := st.script ++ ops ++ genOps,
          cur_time := st.cur_time + 1, allocated_idx := aIdx' }
  | .FunctionCallWithOptions function_name inputs options => do
    let fm ← unwrapO (dsl.function_registry.map.lookup function_name)
    let function_metadata ←
      match fm with
      | .FunctionWithOptions v => Except.ok v
      | _ => Except.error DslError.noOptions
    let (stack1, ops, deferred_ref) ←
      materializeInputs dsl lv st.cur_time inputs
        (inputs.zip function_metadata.input) 0 0 st.stack
    let ref_positions ← deferred_ref.mapM (Stack.get_relative_position stack1)
    let genOps ←
      (function_metadata.script_generator ref_positions options).mapError DslError.genError
    let (stack2, aIdx') ← pushOutputs dsl function_metadata.output stack1 st.allocated_idx
    .ok { stack := stack2, script := st.script ++ ops ++ genOps,
          cur_time := st.cur_time + 1, allocated_idx := aIdx' }
  | .AllocatedConstant idx => do
    let entry ← unwrapO (dsl.memory.lookup idx)
    let input_metadata ← unwrapO (dsl.data_type_registry.map.lookup entry.data_type)
    let stack' ← Stack.push_to_stack st.stack idx input_metadata.element_type.len
    .ok { stack := stack', script := st.script ++ entry.data.pushOps,
          cur_time := st.cur_time, allocated_idx := st.allocated_idx + 1 }
  | .AllocatedHint idx => do
    let entry ← unwrapO (dsl.memory.lookup idx)
    let input_metadata ← unwrapO (dsl.data_type_registry.map.lookup entry.data_type)
    let len := input_metadata.element_type.len
    let stack' ← Stack.push_to_stack st.stack idx len
    .ok { stack := stack', script := st.script ++ hintOps len,
          cur_time := st.cur_time, allocated_idx := st.allocated_idx + 1 }

/-- The trace-replay loop of Compiler::compiler. -/
def replay (dsl : DSL) (lv : Nat → Int) :
    List TraceEntry → ReplayState → Except DslError ReplayState
  | [], st => .ok st
  | e :: rest, st => do
    let st' ← processEntry dsl lv st e
    replay dsl lv rest st'

/-- Output drainage (compiler.rs lines 254-299): walk the reversed declared
output list; for each entry the source tests
`output_list_rev[i..].contains(&idx)` — the slice that starts at the current
element, rendered here as `idx :: rest` — picking if it holds and rolling
(with `stack.pull`) otherwise.  Returns the stack, the emitted opcodes, and
`output_total_len`. -/
def drainOutputs : List Nat → Stack → Except DslError (Stack × List Op × Nat)
  | [], stack => .ok (stack, [], 0)
  | idx :: rest, stack => do
    let pos ← Stack.get_relative_position stack idx
    let len ← Stack.get_length stack idx
    if (idx :: rest).contains idx then
      let (stack', ops, total) ← drainOutputs rest stack
      .ok (stack',
          (repPair len (Op.pushNum pos) Op.OP_PICK ++ List.replicate len Op.OP_TOALTSTACK)
            ++ ops,
          len + total)
    else
      let stack1 ← Stack.pull stack idx
      let (stack', ops, total) ← drainOutputs rest stack1
      .ok (stack',
          (repPair len (Op.pushNum pos) Op.OP_ROLL ++ List.replicate len Op.OP_TOALTSTACK)
            ++ ops,
          len + total)

/-- Stack cleanup (compiler.rs lines 301-308): `r / 2` copies of `2DROP`, one
`DROP` if `r` is odd. -/
def cleanupOps (r : Nat) : List Op :=
  List.replicate (r / 2) Op.OP_2DROP ++ (if r % 2 == 1 then [Op.OP_DROP] else [])

/-- Step 2 of Compiler::compiler: snapshot the first `num_inputs` memory
entries in index order (`dsl.memory.get(&i).unwrap().clone()`). -/
def collectInputs (dsl : DSL) : Except DslError (List MemoryEntry) :=
  match dsl.num_inputs with
  | some n => (List.range n).mapM (fun i => unwrapO (dsl.memory.lookup i))
  | none => .ok []

/-- Step 3 of Compiler::compiler: push each input index with the width of its
stored data (`input_entry.data.len()`). -/
def initStack : List MemoryEntry → Nat → Stack → Except DslError Stack
  | [], _, stack => .ok stack
  | e :: rest, i, stack => do
    let stack' ← Stack.push_to_stack stack i e.data.len
    initStack rest (i + 1) stack'

/-- Compiler::compiler (compiler.rs lines 14-320): liveness pass, input
snapshot, stack initialization, trace replay, output drainage, cleanup, and
altstack restore. -/
def Compiler.compiler (dsl : DSL) : Except DslError CompiledProgram := do
  let lv := lastVisitFun dsl.trace
  let input ← collectInputs dsl
  let stack0 ← initStack input 0 (Stack.new dsl.memory_last_idx)
  let st ← replay dsl lv dsl.trace
    { stack := stack0, script := [], cur_time := 0,
      allocated_idx := dsl.num_inputs.getD 0 }
  let (stackD, drainOps, output_total_len) ← drainOutputs dsl.output.reverse st.stack
  let elements_in_stack ← Stack.get_num_elements_in_stack stackD
  .ok { input := input,
        script := st.script ++ drainOps ++ cleanupOps elements_in_stack
          ++ List.replicate output_total_len Op.OP_FROMALTSTACK,
        hint := dsl.hint }

/-- The input-validation loop of DSL::execute (dsl.rs lines 298-303): for each
`(input_idx, input_type)` of `input_idxs.iter().zip(...)`, fetch the memory
entry (`get_mut(..).unwrap()` — a panic if absent) and compare `data_type`
with the declared type for exact equality; mismatch returns the
"input data type mismatches" error. -/
def checkInputTypes (dsl : DSL) : List (Nat × String) → Except DslError Unit
  | [] => .ok ()
  | (input_idx, input_type) :: rest =>
    match dsl.memory.lookup input_idx with
    | none => .error .unwrapNone
    | some stack_entry =>
      if !(stack_entry.data_type == input_type) then .error .inputTypeMismatch
      else checkInputTypes dsl rest

/-- The output-allocation loop of DSL::execute (dsl.rs lines 314-330),
threading the mutated DSL also through the error returns (Rust `&mut self`
mutations persist when the method returns `Err`). -/
def allocOutputs (dsl : DSL) : List (String × MemoryEntry) → DSL × Except DslError (List Nat)
  | [] => (dsl, .ok [])
  | (output_type, entry) :: rest =>
    if !(output_type == entry.data_type) then (dsl, .error .outputTypeMismatch)
    else
      match dsl.data_type_registry.map.lookup output_type with
      | none => (dsl, .error .unwrapNone)
      | some data_type_metadata =>
        if !(entry.data.match_type data_type_metadata.element_type) then
          (dsl, .error .outputDataMismatch)
        else
          let idx := dsl.st.memory_last_idx
          let dsl' := { dsl with st := { dsl.st with
            memory_last_idx := idx + 1,
            memory := dsl.st.memory ++ [(idx, entry)] } }
          match allocOutputs dsl' rest with
          | (dslF, .ok outs) => (dslF, .ok (idx :: outs))
          | (dslF, .error e) => (dslF, .error e)

/-- The opening statement of DSL::execute (dsl.rs lines 275-277, identical in
`alloc_constant`): if `num_inputs` is unset, lock it to the current
`memory_last_idx` — before any validation. -/
def DSL.lockInputs (dsl : DSL) : DSL :=
  if dsl.st.num_inputs.isNone then
    { dsl with st := { dsl.st with num_inputs := some dsl.st.memory_last_idx } }
  else dsl

/-- The body of DSL::execute from the generator invocation on (dsl.rs lines
305-337), entered once registration, arity and input types have been checked:
run the trace generator (its error is propagated, wrapped as `.genError`, and
its state mutations persist), check the output arity, extend the hints,
allocate the outputs, and append the `FunctionCall` trace entry. -/
def DSL.runFunction (dsl : DSL) (function_metadata : AcceptableFunctionMetadata)
    (function_name : String) (input_idxs : List Nat) : DSL × Except DslError (List Nat) :=
  let output_types := function_metadata.output
  let genResult := function_metadata.trace_generator dsl.st input_idxs
  let dsl1 := { dsl with st := genResult.1 }
  match genResult.2 with
  | .error s => (dsl1, .error (.genError s))
  | .ok exec_result =>
    if !(exec_result.new_elements.length == output_types.length) then
      (dsl1, .error .numOutputsMismatch)
    else
      let dsl2 := { dsl1 with st := { dsl1.st with
        hint := dsl1.st.hint ++ exec_result.new_hints } }
      match allocOutputs dsl2 (output_types.zip exec_result.new_elements) with
      | (dslF, .error e) => (dslF, .error e)
      | (dslF, .ok outputs) =>
        ({ dslF with st := { dslF.st with
            trace := dslF.st.trace ++ [.FunctionCall function_name input_idxs] } },
         .ok outputs)

/-- DSL::execute after the `num_inputs` lock (dsl.rs lines 279-338):
registration check, arity check, per-position input type check, then
`runFunction`. -/
def DSL.executePostLock (dsl : DSL) (function_name : String) (input_idxs : List Nat) :
    DSL × Except DslError (List Nat) :=
  match dsl.function_registry.map.lookup function_name with
  | none => (dsl, .error .notRegistered)
  | some function_metadata =>
    if !(function_metadata.input.length == input_idxs.length) then
      (dsl, .error .numInputsMismatch)
    else
      match checkInputTypes dsl (input_idxs.zip function_metadata.input) with
      | .error e => (dsl, .error e)
      | .ok _ => DSL.runFunction dsl function_metadata function_name input_idxs

/-- DSL::execute (dsl.rs lines 270-338).  The method mutates `self` and
returns a `Result`; it is modelled as returning the post-state in both
outcomes. -/
def DSL.execute (dsl0 : DSL) (function_name : String) (input_idxs : List Nat) :
    DSL × Except DslError (List Nat) :=
  DSL.executePostLock (DSL.lockInputs dsl0) function_name input_idxs

/-- DSL::alloc (dsl.rs lines 163-189): reserve the next index (the increment
of `memory_last_idx` happens before any check and persists on error), verify
the data type is registered and the data matches it, and insert the entry. -/
def DSL.alloc (dsl0 : DSL) (data_type : String) (data : Element) : DSL × Except DslError Nat :=
  let idx := dsl0.st.memory_last_idx
  let dsl := { dsl0 with st := { dsl0.st with memory_last_idx := idx + 1 } }
  match dsl.data_type_registry.map.lookup data_type with
  | none => (dsl, .error .dataTypeNotRegistered)
  | some data_type_metadata =>
    if !(data.match_type data_type_metadata.element_type) then (dsl, .error .dataMismatch)
    else if (dsl.st.memory.lookup idx).isSome then (dsl, .error .memoryCorrupted)
    else
      ({ dsl with st := { dsl.st with
          memory := dsl.st.memory ++ [(idx, ⟨data_type, data, none⟩)] } },
       .ok idx)

/-- DSL::alloc_input (dsl.rs lines 200-207): fails once `num_inputs` is set. -/
def DSL.alloc_input (dsl : DSL) (data_type : String) (data : Element) :
    DSL × Except DslError Nat :=
  if dsl.st.num_inputs.isSome then (dsl, .error .allocAfterLock)
  else DSL.alloc dsl data_type data

/-- DSL::alloc_constant (dsl.rs lines 191-198): locks `num_inputs` on first
call, allocates, and appends the `AllocatedConstant` trace entry. -/
def DSL.alloc_constant (dsl0 : DSL) (data_type : String) (data : Element) :
    DSL × Except DslError Nat :=
  let dsl := DSL.lockInputs dsl0
  match DSL.alloc dsl data_type data with
  | (dsl', .ok idx) =>
    ({ dsl' with st := { dsl'.st with
        trace := dsl'.st.trace ++ [.AllocatedConstant idx] } },
     .ok idx)
  | (dsl', .error e) => (dsl', .error e)

/-! Concrete fixtures used by the claim theorems. -/

/-- A trace generator that reads nothing and produces no elements or hints. -/
def dummyGen : DslState → List Nat → DslState × Except String FunctionOutput :=
  fun st _ => (st, Except.ok ⟨[], []⟩)

/-- The scalar `num` data type. -/
def numMeta : DataTypeMetadata := ⟨ElementType.Num, false⟩

/-- A two-input one-output `add`-shaped function whose script generator emits
nothing. -/
def addMeta : AcceptableFunctionMetadata :=
  .FunctionWithoutOptions ⟨dummyGen, fun _ => .ok [], ["num", "num"], ["num"]⟩

/-- Two `num` inputs, one call `add(0, 1)` producing idx 2, declared outputs
`[2]`: the scenario of spec §8 scenario 3, in which both inputs die at the
call. -/
def dslC1 : DSL :=
  { data_type_registry := ⟨[("num", numMeta)]⟩,
    function_registry := ⟨[("add", addMeta)]⟩,
    st := { memory := [(0, ⟨"num", .Num 1, none⟩), (1, ⟨"num", .Num 2, none⟩),
                       (2, ⟨"num", .Num 3, none⟩)],
            memory_last_idx := 3,
            trace := [.FunctionCall "add" [0, 1]],
            num_inputs := some 2,
            hint := [],
            output := [2] } }

/-- One `num` input, empty trace, declared outputs `[0]`. -/
def dslC2 : DSL :=
  { data_type_registry := ⟨[("num", numMeta)]⟩,
    function_registry := ⟨[]⟩,
    st := { memory := [(0, ⟨"num", .Num 7, none⟩)],
            memory_last_idx := 1,
            trace := [],
            num_inputs := some 1,
            hint := [],
            output := [0] } }

/-- One `num` input at idx 0, empty trace, declared outputs `[0]`: the DSL of
spec §8 scenario 1 (single input, identity output). -/
def dslC5 : DSL :=
  { data_type_registry := ⟨[("num", numMeta)]⟩,
    function_registry := ⟨[]⟩,
    st := { memory := [(0, ⟨"num", .Num 5, none⟩)],
            memory_last_idx := 1,
            trace := [],
            num_inputs := some 1,
            hint := [],
            output := [0] } }

/-- A trace calling a function name absent from the (empty) registry. -/
def dslC6a : DSL :=
  { data_type_registry := ⟨[]⟩, function_registry := ⟨[]⟩,
    st := { memory := [], memory_last_idx := 0,
            trace := [.FunctionCall "ghost" []],
            num_inputs := none, hint := [], output := [] } }

/-- A `FunctionCallWithOptions` aimed at a function registered without an
options-accepting generator. -/
def dslC6b : DSL :=
  { data_type_registry := ⟨[]⟩,
    function_registry := ⟨[("f", addMeta)]⟩,
    st := { memory := [], memory_last_idx := 0,
            trace := [.FunctionCallWithOptions "f" [] Options.new],
            num_inputs := none, hint := [], output := [] } }

/-- A one-input function whose declared input type carries the `&` reference
marker. -/
def refMeta : AcceptableFunctionMetadata :=
  .FunctionWithoutOptions ⟨dummyGen, fun _ => .ok [], ["&num"], []⟩

/-- Memory holding a plain `num` at idx 0, with `refFn` declared to take
`&num`. -/
def dslC7 : DSL :=
  { data_type_registry := ⟨[("num", numMeta), ("&num", numMeta)]⟩,
    function_registry := ⟨[("refFn", refMeta)]⟩,
    st := { memory := [(0, ⟨"num", .Num 1, none⟩)],
            memory_last_idx := 1,
            trace := [],
            num_inputs := some 1,
            hint := [],
            output := [] } }

/-- A no-input one-output function registered with an options-accepting
generator. -/
def gMeta : FunctionWithOptionsMetadata :=
  ⟨dummyGen, fun _ _ => .ok [], [], ["num"]⟩

/-- Registry for the options-path replay step. -/
def dslC8 : DSL :=
  { data_type_registry := ⟨[("num", numMeta)]⟩,
    function_registry := ⟨[("g", .FunctionWithOptions gMeta)]⟩,
    st := { memory := [], memory_last_idx := 0, trace := [], num_inputs := some 0,
            hint := [], output := [] } }

/-- A fresh DSL with a registered type, nothing allocated, nothing
registered as a function, and `num_inputs` unset. -/
def dslC10 : DSL :=
  { data_type_registry := ⟨[("num", numMeta)]⟩, function_registry := ⟨[]⟩,
    st := { memory := [], memory_last_idx := 0, trace := [], num_inputs := none,
            hint := [], output := [] } }

/-- A liveness function under which no index is ever visited. -/
def lvNone : Nat → Int := fun _ => -1

/-- C4: for every width `w ≥ 1` and distance, `roll_script` emits nothing at
distance `w - 1`, `w` SWAP bytes at distance 1, `w` ROT bytes at distance 2,
and `w` (immediate, ROLL) pairs at every other distance — the cases read in
the source's order, the `distance == w - 1` test first. -/
theorem c4_roll_script_cases (w d : Nat) (hw : 1 ≤ w) :
    roll_script (w - 1) w = [] ∧
    (1 ≠ w - 1 → roll_script 1 w = List.replicate w Op.OP_SWAP) ∧
    (2 ≠ w - 1 → roll_script 2 w = List.replicate w Op.OP_ROT) ∧
    (d ≠ w - 1 → d ≠ 1 → d ≠ 2 → roll_script d w = repPair w (Op.pushNum d) Op.OP_ROLL) := by
  refine ⟨?_, ?_, ?_, ?_⟩
  · simp [roll_script]
  · intro h
    simp [roll_script, h]
  · intro h
    simp [roll_script, h]
  · intro h1 h2 h3
    simp [roll_script, h1, h2, h3]

/-- C4 witness: the four cases at `w = 4`, `d = 7`. -/
theorem c4_roll_script_cases_witness :
    roll_script 3 4 = [] ∧
    roll_script 1 4 = List.replicate 4 Op.OP_SWAP ∧
    roll_script 2 4 = List.replicate 4 Op.OP_ROT ∧
    roll_script 7 4 = repPair 4 (Op.pushNum 7) Op.OP_ROLL := by
  obtain ⟨a, b, c, d⟩ := c4_roll_script_cases 4 7 (by decide)
  exact ⟨a, b (by decide), c (by decide), d (by decide) (by decide) (by decide)⟩

/-- C9: for every width `w ≥ 1`, `pick_script` emits `w` DUP bytes at
distance 0, `w` OVER bytes at distance 1, and `w` (immediate, PICK) pairs at
every distance `≥ 2`. -/
theorem c9_pick_script_cases (w d : Nat) (hw : 1 ≤ w) (hd : 2 ≤ d) :
    pick_script 0 w = List.replicate w Op.OP_DUP ∧
    pick_script 1 w = List.replicate w Op.OP_OVER ∧
    pick_script d w = repPair w (Op.pushNum d) Op.OP_PICK := by
  have h0 : d ≠ 0 := by omega
  have h1 : d ≠ 1 := by omega
  exact ⟨by simp [pick_script], by simp [pick_script], by simp [pick_script, h0, h1]⟩

/-- C9 witness: the three cases at `w = 2`, `d = 3`. -/
theorem c9_pick_script_cases_witness :
    pick_script 0 2 = List.replicate 2 Op.OP_DUP ∧
    pick_script 1 2 = List.replicate 2 Op.OP_OVER ∧
    pick_script 3 2 = repPair 2 (Op.pushNum 3) Op.OP_PICK :=
  c9_pick_script_cases 2 3 (by decide) (by decide)

/-- C1 (code bug): in `dslC1`, argument 0 of the call `add(0, 1)` satisfies
all three roll conditions of the claim — `last_visit[0]` equals the call time
0, idx 0 does not appear among the later arguments `inputs[1..]`, and idx 0 is
not a declared output — yet the compiled script begins `OVER, OVER`: both
arguments are materialized with picks and nothing is ever rolled or pulled,
because the source tests the slice `inputs[i..]`, which always contains the
current argument. -/
theorem c1_materialization_never_rolls :
    Compiler.compiler dslC1 = Except.ok
      { input := [⟨"num", Element.Num 1, none⟩, ⟨"num", Element.Num 2, none⟩],
        script := [Op.OP_OVER, Op.OP_OVER, Op.pushNum 0, Op.OP_PICK, Op.OP_TOALTSTACK,
                   Op.OP_2DROP, Op.OP_DROP, Op.OP_FROMALTSTACK],
        hint := [] } ∧
    lastVisitFun dslC1.trace 0 = 0 ∧
    (([0, 1] : List Nat).drop 1).contains 0 = false ∧
    dslC1.output.contains 0 = false :=
  ⟨rfl, rfl, rfl, rfl⟩

/-- C2 (code bug): in `dslC2` the declared outputs are `[0]`, so idx 0 does
not appear in `outputs_rev[1..]` and the claim mandates the roll path
(`0 ROLL`, `TOALTSTACK`, `stack.pull(0)`); the compiler instead emits the pick
path (`0 PICK`, `TOALTSTACK`) and leaves the entry live — witnessed by the
`DROP` that cleanup then needs — because the source tests the slice
`output_list_rev[i..]`, which always contains the current element. -/
theorem c2_drainage_never_rolls :
    Compiler.compiler dslC2 = Except.ok
      { input := [⟨"num", Element.Num 7, none⟩],
        script := [Op.pushNum 0, Op.OP_PICK, Op.OP_TOALTSTACK, Op.OP_DROP,
                   Op.OP_FROMALTSTACK],
        hint := [] } ∧
    (dslC2.output.reverse.drop 1).contains 0 = false :=
  ⟨rfl, rfl⟩

/-- C5 (code bug): compiling the single-input identity DSL yields
`0 PICK, TOALTSTACK, DROP, FROMALTSTACK` — a pick plus one cleanup `DROP` —
not the claimed `0 ROLL, TOALTSTACK, FROMALTSTACK` with zero cleanup
opcodes. -/
theorem c5_identity_output_script :
    Compiler.compiler dslC5 = Except.ok
      { input := [⟨"num", Element.Num 5, none⟩],
        script := [Op.pushNum 0, Op.OP_PICK, Op.OP_TOALTSTACK, Op.OP_DROP,
                   Op.OP_FROMALTSTACK],
        hint := [] } :=
  rfl

/-- Liveness as claim C3 words it, for comparison with the source's pass:
call time increments by exactly one per function call *with or without
options*, and both kinds record visits; constant/hint entries do neither. -/
def lastVisitClaimStep (acc : Int × (Nat → Int)) : TraceEntry → Int × (Nat → Int)
  | .FunctionCall _ inputs =>
    (acc.1 + 1, fun j => if inputs.contains j then acc.1 else acc.2 j)
  | .FunctionCallWithOptions _ inputs _ =>
    (acc.1 + 1, fun j => if inputs.contains j then acc.1 else acc.2 j)
  | _ => acc

/-- The liveness map claim C3 describes (folding `lastVisitClaimStep`). -/
def lastVisitClaim (trace : List TraceEntry) : Nat → Int :=
  (trace.foldl lastVisitClaimStep (0, fun _ => -1)).2

/-- C3 counterexample: a trace consisting of one `FunctionCallWithOptions`
reading idx 0.  The claim's liveness map assigns `last_visit[0] = 0` (the call
reads idx 0 at call time 0); the source's pass leaves `last_visit[0] = -1`,
because its `match` only records and advances on plain `FunctionCall`. -/
theorem c3_counterexample :
    lastVisitFun [TraceEntry.FunctionCallWithOptions "f" [0] Options.new] 0 = -1 ∧
    lastVisitClaim [TraceEntry.FunctionCallWithOptions "f" [0] Options.new] 0 = 0 ∧
    (-1 : Int) ≠ 0 :=
  ⟨rfl, rfl, by decide⟩

/-- Whether a failure is a returned error (every `Error::msg` site and
propagated generator or stack error), as opposed to the model of a Rust
`unwrap()` panic. -/
def DslError.isDescriptive : DslError → Bool
  | .unwrapNone => false
  | _ => true

/-- C6 counterexample: `dslC6a`'s trace calls the unregistered name "ghost";
compilation fails by the `unwrap()` panic on the registry lookup
(`.unwrapNone`), not with a descriptive error as the claim states. -/
theorem c6_counterexample :
    TraceEntry.FunctionCall "ghost" [] ∈ dslC6a.trace ∧
    dslC6a.function_registry.map.lookup "ghost" = none ∧
    Compiler.compiler dslC6a = Except.error DslError.unwrapNone ∧
    DslError.unwrapNone.isDescriptive = false :=
  ⟨by decide, rfl, rfl, rfl⟩

/-- The leading-`&` stripping that claim C7 describes. -/
def stripRefMarker (s : String) : String :=
  match s.data with
  | '&' :: rest => String.mk rest
  | _ => s

/-- C7 counterexample: `refFn` declares input type `&num` and idx 0 holds a
`num`, so the stored type equals the declared type with the leading `&`
stripped — the claim says the call must be accepted — yet `execute` returns
the type-mismatch error, because dsl.rs compares the two strings verbatim. -/
theorem c7_counterexample :
    stripRefMarker "&num" = "num" ∧
    (dslC7.memory.lookup 0).map MemoryEntry.data_type = some "num" ∧
    (DSL.execute dslC7 "refFn" [0]).2 = Except.error DslError.inputTypeMismatch :=
  ⟨rfl, rfl, rfl⟩

/-- C8 counterexample: replaying a `FunctionCallWithOptions` on `dslC8` (one
declared output) from `allocated_idx = 5` succeeds with `allocated_idx = 6`:
the options-accepting path does increment `allocated_idx` when it pushes the
call's outputs, contrary to the claim. -/
theorem c8_counterexample :
    processEntry dslC8 lvNone ⟨[], [], 0, 5⟩
      (TraceEntry.FunctionCallWithOptions "g" [] Options.new)
      = Except.ok ⟨[(5, 1)], [], 1, 6⟩ ∧ (6 : Nat) ≠ 5 :=
  ⟨rfl, by decide⟩

/-- The input lists of the plain (no-options) `FunctionCall` entries of a
trace, in trace order — the only entries the liveness pass of compiler.rs
looks at. -/
def nonOptionCalls : List TraceEntry → List (List Nat)
  | [] => []
  | .FunctionCall _ inputs :: rest => inputs :: nonOptionCalls rest
  | _ :: rest => nonOptionCalls rest

/-- The liveness step restricted to a call's input list. -/
def callStep (acc : Int × (Nat → Int)) (c : List Nat) : Int × (Nat → Int) :=
  (acc.1 + 1, fun j => if c.contains j then acc.1 else acc.2 j)

/-- The call time of the last list in `calls` that contains `j`, counting
call times from `t0` upward, or `-1` if none does. -/
def lastReadFrom (t0 : Int) : List (List Nat) → Nat → Int
  | [], _ => -1
  | c :: rest, j =>
    let r := lastReadFrom (t0 + 1) rest j
    if r ≠ -1 then r
    else if c.contains j then t0 else -1

theorem lastVisit_foldl_calls (trace : List TraceEntry) :
    ∀ acc : Int × (Nat → Int),
      trace.foldl lastVisitStep acc = (nonOptionCalls trace).foldl callStep acc := by
  induction trace with
  | nil => intro acc; rfl
  | cons e rest ih =>
    intro acc
    cases e <;> simp [List.foldl, lastVisitStep, nonOptionCalls, callStep, ih]

theorem foldl_callStep_eval (calls : List (List Nat)) :
    ∀ (t0 : Int) (f0 : Nat → Int) (j : Nat), 0 ≤ t0 →
      (calls.foldl callStep (t0, f0)).2 j =
        (if lastReadFrom t0 calls j ≠ -1 then lastReadFrom t0 calls j else f0 j) := by
  induction calls with
  | nil =>
    intro t0 f0 j ht
    simp [lastReadFrom]
  | cons c rest ih =>
    intro t0 f0 j ht
    have hne : t0 ≠ -1 := by omega
    simp only [List.foldl]
    rw [show callStep (t0, f0) c
        = (t0 + 1, fun j => if c.contains j then t0 else f0 j) from rfl]
    rw [ih (t0 + 1) _ j (by omega)]
    simp only [lastReadFrom]
    by_cases hr : lastReadFrom (t0 + 1) rest j = -1
    · by_cases hc : j ∈ c
      · simp [callStep, hr, hc, hne]
      · simp [callStep, hr, hc]
    · simp [callStep, hr]

/-- C3 (amended): the liveness pass assigns `last_visit[idx]` the call time of
the last *no-options* `FunctionCall` that reads `idx`, where call time starts
at 0 and increments by exactly one per no-options `FunctionCall` in trace
order; `FunctionCallWithOptions` entries — like constant and hint allocations
— neither advance call time nor record visits, and indices never read by a
no-options call keep `-1`. -/
theorem c3_last_visit_amended (trace : List TraceEntry) (idx : Nat) :
    lastVisitFun trace idx = lastReadFrom 0 (nonOptionCalls trace) idx := by
  unfold lastVisitFun
  rw [lastVisit_foldl_calls]
  rw [foldl_callStep_eval _ 0 _ idx (le_refl 0)]
  by_cases h : lastReadFrom 0 (nonOptionCalls trace) idx = -1
  · simp [h]
  · simp [h]

/-- Reduction of `Except.bind` on a success. -/
@[simp] theorem exceptOkBind (a : α) (f : α → Except ε β) :
    (Except.ok a >>= f) = f a := rfl

/-- Reduction of `Except.bind` on an error. -/
@[simp] theorem exceptErrorBind (e : ε) (f : α → Except ε β) :
    ((Except.error e : Except ε α) >>= f) = Except.error e := rfl

/-- Reduction of `unwrapO` on a present value. -/
@[simp] theorem unwrapO_some (a : α) : unwrapO (some a) = Except.ok a := rfl

/-- Reduction of `unwrapO` on a missing value. -/
@[simp] theorem unwrapO_none : (unwrapO none : Except DslError α) = Except.error .unwrapNone := rfl

theorem pushOutputs_allocated_idx (dsl : DSL) :
    ∀ (types : List String) (stack : Stack) (aIdx : Nat) (stack' : Stack) (aIdx' : Nat),
      pushOutputs dsl types stack aIdx = .ok (stack', aIdx') →
      aIdx' = aIdx + types.length := by
  intro types
  induction types with
  | nil =>
    intro stack aIdx stack' aIdx' h
    simp only [pushOutputs, List.length_nil] at h ⊢
    cases h
    omega
  | cons t rest ih =>
    intro stack aIdx stack' aIdx' h
    simp only [pushOutputs] at h
    cases hm : dsl.data_type_registry.map.lookup t with
    | none => rw [hm] at h; simp at h
    | some meta =>
      rw [hm] at h
      simp only [unwrapO_some, exceptOkBind] at h
      cases hp : Stack.push_to_stack stack aIdx meta.element_type.len with
      | error e => rw [hp] at h; simp at h
      | ok s2 =>
        rw [hp] at h
        simp only [exceptOkBind] at h
        have := ih _ _ _ _ h
        simp only [List.length_cons]
        omega

/-- C8 (amended): both replay paths increment `allocated_idx` once per
declared output of the called function — the options-accepting path included
(compiler.rs line 209 mirrors line 135). -/
theorem c8_allocated_idx_amended :
    (∀ (dsl : DSL) (lv : Nat → Int) (st : ReplayState) (name : String)
        (inputs : List Nat) (opts : Options) (st' : ReplayState)
        (v : FunctionWithOptionsMetadata),
      dsl.function_registry.map.lookup name = some (.FunctionWithOptions v) →
      processEntry dsl lv st (.FunctionCallWithOptions name inputs opts) = .ok st' →
      st'.allocated_idx = st.allocated_idx + v.output.length) ∧
    (∀ (dsl : DSL) (lv : Nat → Int) (st : ReplayState) (name : String)
        (inputs : List Nat) (st' : ReplayState) (fm : AcceptableFunctionMetadata),
      dsl.function_registry.map.lookup name = some fm →
      processEntry dsl lv st (.FunctionCall name inputs) = .ok st' →
      st'.allocated_idx = st.allocated_idx + fm.output.length) := by
  constructor
  · intro dsl lv st name inputs opts st' v hreg h
    simp only [processEntry, hreg, unwrapO_some, exceptOkBind] at h
    cases hmat : materializeInputs dsl lv st.cur_time inputs
        (inputs.zip v.input) 0 0 st.stack with
    | error e => rw [hmat] at h; simp at h
    | ok triple =>
      obtain ⟨stack1, ops, refs⟩ := triple
      rw [hmat] at h
      simp only [exceptOkBind] at h
      cases hrefs : refs.mapM (Stack.get_relative_position stack1) with
      | error e => rw [hrefs] at h; simp at h
      | ok ref_positions =>
        rw [hrefs] at h
        simp only [exceptOkBind] at h
        cases hgen : (v.script_generator ref_positions opts).mapError DslError.genError with
        | error e => rw [hgen] at h; simp at h
        | ok genOps =>
          rw [hgen] at h
          simp only [exceptOkBind] at h
          cases hpush : pushOutputs dsl v.output stack1 st.allocated_idx with
          | error e => rw [hpush] at h; simp at h
          | ok pair =>
            obtain ⟨stack2, aIdx'⟩ := pair
            rw [hpush] at h
            simp only [exceptOkBind] at h
            cases h
            exact pushOutputs_allocated_idx dsl _ _ _ _ _ hpush
  · intro dsl lv st name inputs st' fm hreg h
    simp only [processEntry, hreg, unwrapO_some, exceptOkBind] at h
    cases hmat : materializeInputs dsl lv st.cur_time inputs
        (inputs.zip fm.input) 0 0 st.stack with
    | error e => rw [hmat] at h; simp at h
    | ok triple =>
      obtain ⟨stack1, ops, refs⟩ := triple
      rw [hmat] at h
      simp only [exceptOkBind] at h
      cases hrefs : refs.mapM (Stack.get_relative_position stack1) with
      | error e => rw [hrefs] at h; simp at h
      | ok ref_positions =>
        rw [hrefs] at h
        simp only [exceptOkBind] at h
        cases hgen : runScriptGenerator fm ref_positions with
        | error e => rw [hgen] at h; simp at h
        | ok genOps =>
          rw [hgen] at h
          simp only [exceptOkBind] at h
          cases hpush : pushOutputs dsl fm.output stack1 st.allocated_idx with
          | error e => rw [hpush] at h; simp at h
          | ok pair =>
            obtain ⟨stack2, aIdx'⟩ := pair
            rw [hpush] at h
            simp only [exceptOkBind] at h
            cases h
            exact pushOutputs_allocated_idx dsl _ _ _ _ _ hpush

/-- C8 witness: the amended theorem applied to the concrete options-path
replay step of `c8_counterexample`'s scenario. -/
theorem c8_allocated_idx_amended_witness :
    (6 : Nat) = 5 + gMeta.output.length := by
  have h := c8_allocated_idx_amended.1 dslC8 lvNone ⟨[], [], 0, 5⟩ "g" [] Options.new
    ⟨[(5, 1)], [], 1, 6⟩ gMeta rfl rfl
  simpa using h

/-- Whether an `Except` computation succeeded. -/
def exceptIsOk : Except ε α → Bool
  | .ok _ => true
  | .error _ => false

/-- Reduction of `exceptIsOk` on a success. -/
@[simp] theorem exceptIsOk_ok (a : α) : exceptIsOk (Except.ok a : Except ε α) = true := rfl

/-- Reduction of `exceptIsOk` on an error. -/
@[simp] theorem exceptIsOk_error (e : ε) :
    exceptIsOk (Except.error e : Except ε α) = false := rfl

theorem processEntry_unregistered_call (dsl : DSL) (lv : Nat → Int) (st : ReplayState)
    (name : String) (inputs : List Nat)
    (h : dsl.function_registry.map.lookup name = none) :
    processEntry dsl lv st (.FunctionCall name inputs) = .error .unwrapNone := by
  simp [processEntry, h]

theorem processEntry_unregistered_call_opts (dsl : DSL) (lv : Nat → Int) (st : ReplayState)
    (name : String) (inputs : List Nat) (opts : Options)
    (h : dsl.function_registry.map.lookup name = none) :
    processEntry dsl lv st (.FunctionCallWithOptions name inputs opts) = .error .unwrapNone := by
  simp [processEntry, h]

theorem processEntry_no_options_generator (dsl : DSL) (lv : Nat → Int) (st : ReplayState)
    (name : String) (inputs : List Nat) (opts : Options) (v : FunctionWithoutOptionsMetadata)
    (h : dsl.function_registry.map.lookup name = some (.FunctionWithoutOptions v)) :
    processEntry dsl lv st (.FunctionCallWithOptions name inputs opts) = .error .noOptions := by
  simp [processEntry, h]

theorem replay_stuck (dsl : DSL) (lv : Nat → Int) (e : TraceEntry)
    (hbad : ∀ st, ∃ err, processEntry dsl lv st e = .error err) :
    ∀ (entries : List TraceEntry) (st : ReplayState), e ∈ entries →
      exceptIsOk (replay dsl lv entries st) = false := by
  intro entries
  induction entries with
  | nil => intro st hmem; cases hmem
  | cons f rest ih =>
    intro st hmem
    rcases List.mem_cons.mp hmem with h1 | h2
    · subst h1
      obtain ⟨err, herr⟩ := hbad st
      simp [replay, herr]
    · cases hp : processEntry dsl lv st f with
      | error err => simp [replay, hp]
      | ok st' =>
        simp only [replay, hp, exceptOkBind]
        exact ih st' h2

theorem compiler_not_ok_of_stuck (dsl : DSL) (e : TraceEntry) (hmem : e ∈ dsl.trace)
    (hbad : ∀ st, ∃ err, processEntry dsl (lastVisitFun dsl.trace) st e = .error err) :
    exceptIsOk (Compiler.compiler dsl) = false := by
  unfold Compiler.compiler
  cases hin : collectInputs dsl with
  | error err => simp [hin]
  | ok input =>
    cases hst : initStack input 0 (Stack.new dsl.memory_last_idx) with
    | error err => simp [hin, hst]
    | ok stack0 =>
      have hrep := replay_stuck dsl (lastVisitFun dsl.trace) e hbad dsl.trace
        { stack := stack0, script := [], cur_time := 0,
          allocated_idx := dsl.num_inputs.getD 0 } hmem
      cases hr : replay dsl (lastVisitFun dsl.trace) dsl.trace
          { stack := stack0, script := [], cur_time := 0,
            allocated_idx := dsl.num_inputs.getD 0 } with
      | error err => simp [hin, hst, hr]
      | ok st => rw [hr] at hrep; simp at hrep

/-- C6 (amended): a trace entry calling an unregistered function name — with
or without options — prevents compilation from ever producing a
`CompiledProgram`, but by the `unwrap()` panic on the registry lookup rather
than by a descriptive error; a `FunctionCallWithOptions` whose target
function registered no options-accepting generator also prevents any
`CompiledProgram`, and when replay reaches it first it fails with the
descriptive error `The function does not offer options` (while the
unregistered case fails as the panic `.unwrapNone`). -/
theorem c6_registry_errors_amended :
    (∀ (dsl : DSL) (name : String) (inputs : List Nat),
      TraceEntry.FunctionCall name inputs ∈ dsl.trace →
      dsl.function_registry.map.lookup name = none →
      exceptIsOk (Compiler.compiler dsl) = false) ∧
    (∀ (dsl : DSL) (name : String) (inputs : List Nat) (opts : Options),
      TraceEntry.FunctionCallWithOptions name inputs opts ∈ dsl.trace →
      dsl.function_registry.map.lookup name = none →
      exceptIsOk (Compiler.compiler dsl) = false) ∧
    (∀ (dsl : DSL) (name : String) (inputs : List Nat) (opts : Options)
        (v : FunctionWithoutOptionsMetadata),
      TraceEntry.FunctionCallWithOptions name inputs opts ∈ dsl.trace →
      dsl.function_registry.map.lookup name = some (.FunctionWithoutOptions v) →
      exceptIsOk (Compiler.compiler dsl) = false) ∧
    Compiler.compiler dslC6b = Except.error DslError.noOptions ∧
    Compiler.compiler dslC6a = Except.error DslError.unwrapNone := by
  refine ⟨?_, ?_, ?_, rfl, rfl⟩
  · intro dsl name inputs hmem hreg
    exact compiler_not_ok_of_stuck dsl _ hmem
      (fun st => ⟨.unwrapNone, processEntry_unregistered_call dsl _ st name inputs hreg⟩)
  · intro dsl name inputs opts hmem hreg
    exact compiler_not_ok_of_stuck dsl _ hmem
      (fun st => ⟨.unwrapNone,
        processEntry_unregistered_call_opts dsl _ st name inputs opts hreg⟩)
  · intro dsl name inputs opts v hmem hreg
    exact compiler_not_ok_of_stuck dsl _ hmem
      (fun st => ⟨.noOptions,
        processEntry_no_options_generator dsl _ st name inputs opts v hreg⟩)

/-- C6 witness: the amended theorem applied to the two concrete registry-error
scenarios. -/
theorem c6_registry_errors_amended_witness :
    exceptIsOk (Compiler.compiler dslC6a) = false ∧
    exceptIsOk (Compiler.compiler dslC6b) = false :=
  ⟨c6_registry_errors_amended.1 dslC6a "ghost" [] (by decide) rfl,
   c6_registry_errors_amended.2.2.1 dslC6b "f" [] Options.new
     ⟨dummyGen, fun _ => .ok [], ["num", "num"], ["num"]⟩ (by decide) rfl⟩

theorem checkInputTypes_cases (dsl : DSL) :
    ∀ l : List (Nat × String),
      (∀ p ∈ l, (dsl.memory.lookup p.1).isSome = true) →
      checkInputTypes dsl l = .ok () ∨ checkInputTypes dsl l = .error .inputTypeMismatch := by
  intro l
  induction l with
  | nil => intro _; left; rfl
  | cons p rest ih =>
    intro hall
    obtain ⟨idx, t⟩ := p
    have hpres := hall (idx, t) (List.mem_cons_self _ _)
    cases hm : dsl.memory.lookup idx with
    | none => rw [hm] at hpres; simp at hpres
    | some entry =>
      simp only [checkInputTypes, hm]
      by_cases heq : entry.data_type = t
      · simp only [heq, beq_self_eq_true, Bool.not_true, Bool.false_eq_true, if_false]
        exact ih (fun q hq => hall q (List.mem_cons_of_mem _ hq))
      · right
        simp [heq]

theorem checkInputTypes_mismatch_iff (dsl : DSL) :
    ∀ l : List (Nat × String),
      (∀ p ∈ l, (dsl.memory.lookup p.1).isSome = true) →
      (checkInputTypes dsl l = .error .inputTypeMismatch ↔
        ∃ p ∈ l, ∃ e, dsl.memory.lookup p.1 = some e ∧ e.data_type ≠ p.2) := by
  intro l
  induction l with
  | nil => intro _; simp [checkInputTypes]
  | cons p rest ih =>
    intro hall
    obtain ⟨idx, t⟩ := p
    have hpres := hall (idx, t) (List.mem_cons_self _ _)
    cases hm : dsl.memory.lookup idx with
    | none => rw [hm] at hpres; simp at hpres
    | some entry =>
      simp only [checkInputTypes, hm]
      by_cases heq : entry.data_type = t
      · simp only [heq, beq_self_eq_true, Bool.not_true, Bool.false_eq_true, if_false]
        rw [ih (fun q hq => hall q (List.mem_cons_of_mem _ hq))]
        constructor
        · rintro ⟨q, hq, e, hle, hne⟩
          exact ⟨q, List.mem_cons_of_mem _ hq, e, hle, hne⟩
        · rintro ⟨q, hq, e, hle, hne⟩
          rcases List.mem_cons.mp hq with h1 | h2
          · exfalso
            subst h1
            rw [hm] at hle
            cases hle
            exact hne heq
          · exact ⟨q, h2, e, hle, hne⟩
      · constructor
        · intro _
          exact ⟨(idx, t), List.mem_cons_self _ _, entry, hm, heq⟩
        · intro _
          simp [heq]

theorem allocOutputs_error_kinds :
    ∀ (l : List (String × MemoryEntry)) (dsl : DSL) (e : DslError),
      (allocOutputs dsl l).2 = .error e →
      e = .outputTypeMismatch ∨ e = .unwrapNone ∨ e = .outputDataMismatch := by
  intro l
  induction l with
  | nil => intro dsl e h; simp [allocOutputs] at h
  | cons p rest ih =>
    intro dsl e h
    obtain ⟨t, entry⟩ := p
    simp only [allocOutputs] at h
    split at h
    · cases h; left; rfl
    · split at h
      · cases h; right; left; rfl
      · split at h
        · cases h; right; right; rfl
        · split at h
          · simp at h
          · rename_i dslF e' heq
            cases h
            exact ih _ _ (by rw [heq])

theorem runFunction_error_kinds (dsl : DSL) (fm : AcceptableFunctionMetadata)
    (name : String) (idxs : List Nat) (e : DslError)
    (h : (DSL.runFunction dsl fm name idxs).2 = .error e) :
    e ≠ .notRegistered ∧ e ≠ .numInputsMismatch ∧ e ≠ .inputTypeMismatch := by
  unfold DSL.runFunction at h
  dsimp only at h
  split at h
  · cases h
    exact ⟨by simp, by simp, by simp⟩
  · split at h
    · cases h
      exact ⟨by simp, by simp, by simp⟩
    · split at h
      · rename_i dslF e' heq
        cases h
        rcases allocOutputs_error_kinds _ _ _ (by rw [heq]) with h1 | h1 | h1 <;>
          subst h1 <;> exact ⟨by simp, by simp, by simp⟩
      · simp at h

/-- Locking `num_inputs` leaves the function registry untouched. -/
@[simp] theorem lockInputs_function_registry (dsl : DSL) :
    (DSL.lockInputs dsl).function_registry = dsl.function_registry := by
  unfold DSL.lockInputs
  split <;> rfl

/-- Locking `num_inputs` leaves the memory untouched. -/
@[simp] theorem lockInputs_memory (dsl : DSL) :
    (DSL.lockInputs dsl).memory = dsl.memory := by
  unfold DSL.lockInputs DSL.memory
  split <;> rfl

theorem checkInputTypes_lockInputs (dsl : DSL) :
    ∀ l, checkInputTypes (DSL.lockInputs dsl) l = checkInputTypes dsl l := by
  intro l
  induction l with
  | nil => rfl
  | cons p rest ih =>
    obtain ⟨i, t⟩ := p
    simp only [checkInputTypes, lockInputs_memory, ih]

theorem lockInputs_num_inputs_of_none (dsl : DSL) (h : dsl.num_inputs = none) :
    (DSL.lockInputs dsl).num_inputs = some dsl.memory_last_idx := by
  unfold DSL.num_inputs at h
  unfold DSL.lockInputs DSL.num_inputs DSL.memory_last_idx
  simp [h]

theorem alloc_input_locked (dsl : DSL) (h : dsl.num_inputs.isSome = true)
    (dt : String) (data : Element) :
    (DSL.alloc_input dsl dt data).2 = .error .allocAfterLock := by
  unfold DSL.num_inputs at h
  unfold DSL.alloc_input
  simp [h]

/-- C7 (amended): `execute` validates the per-position input types by exact
string equality, with no `&`-marker stripping: given a registered function of
matching arity whose argument indices are all allocated, `execute` returns the
type-mismatch error precisely when some argument's stored `data_type` differs
verbatim from the declared input type. -/
theorem c7_execute_type_check_amended (dsl : DSL) (name : String) (idxs : List Nat)
    (fm : AcceptableFunctionMetadata)
    (hreg : dsl.function_registry.map.lookup name = some fm)
    (har : fm.input.length = idxs.length)
    (hmem : ∀ p ∈ idxs.zip fm.input, (dsl.memory.lookup p.1).isSome = true) :
    (DSL.execute dsl name idxs).2 = Except.error DslError.inputTypeMismatch ↔
      ∃ p ∈ idxs.zip fm.input, ∃ e, dsl.memory.lookup p.1 = some e ∧ e.data_type ≠ p.2 := by
  unfold DSL.execute DSL.executePostLock
  rw [lockInputs_function_registry, hreg]
  dsimp only
  rw [har]
  simp only [beq_self_eq_true, Bool.not_true, Bool.false_eq_true, if_false]
  rw [checkInputTypes_lockInputs]
  cases hchk : checkInputTypes dsl (idxs.zip fm.input) with
  | error e =>
    rcases checkInputTypes_cases dsl _ hmem with hok | hmis
    · rw [hchk] at hok; cases hok
    · rw [hchk] at hmis
      injection hmis with he
      subst he
      dsimp only
      constructor
      · intro _
        exact (checkInputTypes_mismatch_iff dsl _ hmem).mp hchk
      · intro _
        rfl
  | ok u =>
    cases u
    dsimp only
    constructor
    · intro h
      exact absurd rfl ((runFunction_error_kinds _ _ _ _ _ h).2.2)
    · intro hr
      exfalso
      have hx := (checkInputTypes_mismatch_iff dsl _ hmem).mpr hr
      rw [hchk] at hx
      cases hx

/-- C7 witness: the amended characterization applied to the `&num` scenario
(the verbatim comparison `"num" ≠ "&num"` produces the mismatch error). -/
theorem c7_execute_type_check_amended_witness :
    (DSL.execute dslC7 "refFn" [0]).2 = Except.error DslError.inputTypeMismatch := by
  exact (c7_execute_type_check_amended dslC7 "refFn" [0] refMeta rfl rfl (by decide)).mpr
    ⟨(0, "&num"), by decide, ⟨"num", Element.Num 1, none⟩, rfl, by decide⟩

/-- C10: when `num_inputs` is unset, any call to `execute` sets it to the
current `memory_last_idx` before performing any validation, so an `execute`
call failing with a registration, arity, or input-type error still locks
input allocation, and every subsequent `alloc_input` on the resulting state
fails. -/
theorem c10_execute_locks_inputs (dsl : DSL) (name : String) (idxs : List Nat)
    (h : dsl.num_inputs = none) (e : DslError)
    (he : (DSL.execute dsl name idxs).2 = .error e)
    (hk : e = .notRegistered ∨ e = .numInputsMismatch ∨ e = .inputTypeMismatch) :
    (DSL.execute dsl name idxs).1.num_inputs = some dsl.memory_last_idx ∧
    ∀ (dt : String) (data : Element),
      ((DSL.execute dsl name idxs).1.alloc_input dt data).2
        = .error .allocAfterLock := by
  have hlock : (DSL.lockInputs dsl).num_inputs = some dsl.memory_last_idx :=
    lockInputs_num_inputs_of_none dsl h
  have hconc : (DSL.execute dsl name idxs).1 = DSL.lockInputs dsl →
      (DSL.execute dsl name idxs).1.num_inputs = some dsl.memory_last_idx ∧
      ∀ (dt : String) (data : Element),
        ((DSL.execute dsl name idxs).1.alloc_input dt data).2
          = .error .allocAfterLock := by
    intro hd
    rw [hd]
    refine ⟨hlock, fun dt data => alloc_input_locked _ (by rw [hlock]; rfl) dt data⟩
  apply hconc
  unfold DSL.execute DSL.executePostLock at he ⊢
  cases hr : (DSL.lockInputs dsl).function_registry.map.lookup name with
  | none => rfl
  | some fm =>
    rw [hr] at he
    dsimp only at he ⊢
    cases harr : (!(fm.input.length == idxs.length)) with
    | true => rw [harr] at he; simp
    | false =>
      rw [harr] at he
      simp only [Bool.false_eq_true, if_false] at he ⊢
      cases hchk : checkInputTypes (DSL.lockInputs dsl) (idxs.zip fm.input) with
      | error e' => rfl
      | ok u =>
        cases u
        rw [hchk] at he
        exfalso
        have hkinds := runFunction_error_kinds _ _ _ _ _ he
        rcases hk with rfl | rfl | rfl
        · exact hkinds.1 rfl
        · exact hkinds.2.1 rfl
        · exact hkinds.2.2 rfl

/-- C10 witness: executing the unregistered name "f" on a fresh DSL returns
the registration error yet locks `num_inputs`, and a subsequent `alloc_input`
fails. -/
theorem c10_execute_locks_inputs_witness :
    (DSL.execute dslC10 "f" []).1.num_inputs = some 0 ∧
    ((DSL.execute dslC10 "f" []).1.alloc_input "num" (Element.Num 1)).2
      = Except.error DslError.allocAfterLock := by
  have h := c10_execute_locks_inputs dslC10 "f" [] rfl DslError.notRegistered rfl (Or.inl rfl)
  exact ⟨h.1, h.2 "num" (Element.Num 1)⟩

/-- C3 witness: the amended liveness characterization at a concrete trace
mixing a plain call, a constant, and an options call. -/
theorem c3_last_visit_amended_witness :
    lastVisitFun [TraceEntry.FunctionCall "f" [0], TraceEntry.AllocatedConstant 1,
        TraceEntry.FunctionCallWithOptions "g" [0] Options.new] 0
      = lastReadFrom 0 (nonOptionCalls [TraceEntry.FunctionCall "f" [0],
          TraceEntry.AllocatedConstant 1,
          TraceEntry.FunctionCallWithOptions "g" [0] Options.new]) 0 :=
  c3_last_visit_amended _ 0
